import Mathlib

/-!
Shallow embedding of the page manager in `src/io/alloc.rs` (the TFS page
allocator): the metacluster codec, the freelist allocator (`freelist_pop`,
`freelist_push`), the page read path (`read`/`decompress`) and the allocation
path (`alloc`), together with theorems settling the specification claims.

Modelling conventions:
* machine integers are `Nat`; wrapping arithmetic is explicit (`% 256` for the
  `u8` counter, `% 2^32` for the `u32` page checksum, `% 2^64` for `usize`
  offset arithmetic);
* the external collaborators (checksum algorithm, LZ4 codec, disk cache) are
  function-valued fields of `Manager`; the cache is modelled as a total map
  from cluster pointers to sector contents;
* a Rust `panic!` is modelled by the `Outcome.panics` constructor;
* byte-buffer writes are modelled with `List.set`, which drops out-of-range
  writes (the source would panic there); every theorem below stays in bounds.
-/

set_option maxRecDepth 4000

/-- Sector size in bytes (`disk::SECTOR_SIZE`). -/
def SECTOR_SIZE : Nat := 512

/-- Size of an encoded cluster pointer in bytes (`cluster::POINTER_SIZE`). -/
def POINTER_SIZE : Nat := 8

/-- The capacity (in bytes) of a compressed cluster (`CLUSTER_CAPACITY` in `alloc`). -/
def CLUSTER_CAPACITY : Nat := 512 * 2048

/-- A page pointer (`page::Pointer`): cluster, optional sector offset, `u32` checksum. -/
structure Pointer where
  cluster : Nat
  offset : Option Nat
  checksum : Nat
deriving DecidableEq, Repr

/-- A page management error (the `Error` enum; the `Disk` variant is omitted
because the cache is modelled as total and no claim concerns it). The
misspelling `MetacluterChecksumMismatch` is the source's. -/
inductive Error where
  | OutOfClusters : Error
  | PageChecksumMismatch (page : Pointer) (found : Nat) : Error
  | MetacluterChecksumMismatch (cluster : Nat) (expected : Nat) (found : Nat) : Error
  | InvalidCompression : Error
deriving DecidableEq, Repr

/-- Result of running a fallible operation that may also panic. -/
inductive Outcome (α : Type) where
  | panics (msg : String) : Outcome α
  | ok (val : α) : Outcome α
  | error (e : Error) : Outcome α
deriving DecidableEq, Repr

/-- Whether an outcome is a success. -/
def Outcome.isOk {α : Type} : Outcome α → Bool
  | .ok _ => true
  | _ => false

/-- The freelist head descriptor stored in the state block
(`state_block::FreelistHead`: cluster pointer, `u64` checksum, `u8` counter). -/
structure FreelistHead where
  cluster : Nat
  checksum : Nat
  counter : Nat
deriving DecidableEq, Repr

/-- The mutable state stored in the state block (`state_block::State`). -/
structure State where
  freelist_head : Option FreelistHead
deriving DecidableEq, Repr

/-- A metacluster (`Metacluster`): the checksum of the next metacluster, an
optional pointer to it, and the pointers to free clusters. -/
structure Metacluster where
  next_checksum : Nat
  next : Option Nat
  free : List Nat
deriving DecidableEq, Repr

/-- In-memory state of the cluster currently being packed (`ClusterState`). -/
structure ClusterState where
  cluster : Nat
  uncompressed : List Nat
deriving DecidableEq, Repr

/-- The compression configuration option (`CompressionAlgorithm`). -/
inductive CompressionAlgorithm where
  | Identity : CompressionAlgorithm
  | Lz4 : CompressionAlgorithm
deriving DecidableEq, Repr

/-- Data carried by a pending sector write: either the encoded state block
(whose encoder lives outside `src`, kept symbolic) or raw sector bytes. -/
inductive SectorData where
  | stateBlock (s : State) : SectorData
  | raw (bytes : List Nat) : SectorData
deriving DecidableEq, Repr

/-- One pending cache write: target cluster address and data. A cache
transaction (`cache::Transaction`) is a list of writes; `Transaction::then`
is list append, preserving durability order. -/
structure Write where
  addr : Nat
  data : SectorData
deriving DecidableEq, Repr

/-- A value wrapped in a cache transaction (`cache::Transacting`);
`no_transaction` is the empty list. -/
structure Transacting (α : Type) where
  value : α
  transaction : List Write
deriving DecidableEq, Repr

/-- Write the bytes `bs` into `buf` starting at position `off`. -/
def setBytes : List Nat → Nat → List Nat → List Nat
  | buf, _, [] => buf
  | buf, off, b :: bs => setBytes (buf.set off b) (off + 1) bs

/-- The eight little-endian bytes of a `u64` value. -/
def leBytes (v : Nat) : List Nat :=
  [v % 256, v / 2 ^ 8 % 256, v / 2 ^ 16 % 256, v / 2 ^ 24 % 256,
   v / 2 ^ 32 % 256, v / 2 ^ 40 % 256, v / 2 ^ 48 % 256, v / 2 ^ 56 % 256]

/-- Write a `u64` little-endian at offset `off` (`LittleEndian::write`). -/
def writeLE (buf : List Nat) (off v : Nat) : List Nat :=
  setBytes buf off (leBytes v)

/-- Read a `u64` little-endian at offset `off`. -/
def readLE (buf : List Nat) (off : Nat) : Nat :=
  (List.range 8).foldl (fun a i => a + buf.getD (off + i) 0 * 2 ^ (8 * i)) 0

/-- Encode the metacluster (`Metacluster::encode`): next checksum at 0, next
pointer at 8, then `LittleEndian::write(&mut buf[cluster::POINTER_SIZE * i + 8..], i)`
for every `i` in `free` — i.e. each free pointer is written at the offset
`8 * i + 8` determined by its own value (the source's loop binds the element,
not the index; `self.head_metacluster.free` is resolved to `self.free`, the
only field of that name on `Metacluster`). -/
def Metacluster.encode (m : Metacluster) : List Nat :=
  let buf := List.replicate SECTOR_SIZE 0
  let buf := writeLE buf 0 m.next_checksum
  let buf := writeLE buf 8 (m.next.getD 0)
  m.free.foldl (fun b i => writeLE b (POINTER_SIZE * i + 8) i) buf

/-- Encoding of a metacluster following the spec's words (section 4.1):
`next_checksum` little-endian at offset 0, `next.unwrap_or(0)` at offset 8,
the i-th live free pointer at offset `16 + i*8`, zero tail. Used to compare
the source's `encode` against the specified layout. -/
def Metacluster.encodeLayout (m : Metacluster) : List Nat :=
  let buf := List.replicate SECTOR_SIZE 0
  let buf := writeLE buf 0 m.next_checksum
  let buf := writeLE buf 8 (m.next.getD 0)
  m.free.enum.foldl (fun b ni => writeLE b (16 + ni.1 * 8) ni.2) buf

/-- Calculate the checksum of this metacluster (`Metacluster::checksum`):
hash of the first `(free.len() + 1) * POINTER_SIZE + 8` bytes of the encoding
(the source writes `(self.free + 1)`, resolved to `self.free.len() + 1`, the
only well-typed reading). -/
def Metacluster.checksum (m : Metacluster) (hash : List Nat → Nat) : Nat :=
  hash ((m.encode).take ((m.free.length + 1) * POINTER_SIZE + 8))

/-- Modelled from the spec: `Metacluster::decode` is called in `freelist_pop`
but not defined under `src`. Section 4.1 says it reverses `encode` and section
6 says trailing zeros are inert, so the free array is read as the longest
run of nonzero pointer slots from offset 16. -/
def Metacluster.decode (buf : List Nat) : Metacluster :=
  { next_checksum := readLE buf 0
    next := if readLE buf 8 = 0 then none else some (readLE buf 8)
    free := ((List.range ((SECTOR_SIZE - 16) / POINTER_SIZE)).map
              (fun i => readLE buf (16 + 8 * i))).takeWhile (fun p => p != 0) }

/-- The page manager (`Manager`). External collaborators (checksum algorithm,
LZ4 codec, cache contents, state-block address) are function/constant fields. -/
structure Manager where
  state : State
  head_metacluster : Metacluster
  compression_algorithm : CompressionAlgorithm
  last_cluster : Option ClusterState
  dedup_table : List (Nat × List Nat × Pointer)
  hash : List Nat → Nat
  lz4Compress : List Nat → List Nat
  lz4Decompress : List Nat → Option (List Nat)
  cache : Nat → List Nat
  stateBlockAddr : Nat

/-- Flush the state block to the cache (`Manager::flush_state_block`):
one pending write of the encoded state block at the state-block address. -/
def Manager.flush_state_block (m : Manager) (st : State) : List Write :=
  [⟨m.stateBlockAddr, .stateBlock st⟩]

/-- Write the head metacluster to some cluster (`Manager::write_head_metacluster`). -/
def Manager.write_head_metacluster (m : Manager) (cluster : Nat) : List Write :=
  [⟨cluster, .raw m.head_metacluster.encode⟩]

/-- Pop from the freelist (`Manager::freelist_pop`). Mirrors the source:
`state.freelist_head.take()`, then either pop the last free pointer of the
head metacluster (decrement the `u8` counter with wrapping, recompute the
checksum, flush), or — when the head is exhausted — follow `next`: the read
metacluster is accepted when its checksum DIFFERS from the stored
`next_checksum` (the source's `!=` branch returns `Ok`), and the error built
on equality is discarded by the source's `if let Ok(...) ... else None`. -/
def Manager.freelist_pop (m : Manager) : Except Error (Manager × Transacting Nat) :=
  match m.state.freelist_head with
  | none => .error .OutOfClusters
  | some fh =>
    match m.head_metacluster.free.getLast? with
    | some free =>
      let H : Metacluster := { m.head_metacluster with free := m.head_metacluster.free.dropLast }
      let fh' : FreelistHead :=
        { fh with counter := (fh.counter + 255) % 256, checksum := H.checksum m.hash }
      let st : State := ⟨some fh'⟩
      .ok ({ m with head_metacluster := H, state := st },
           ⟨free, m.flush_state_block st⟩)
    | none =>
      match m.head_metacluster.next with
      | some nextMc =>
        let M := Metacluster.decode (m.cache nextMc)
        let ck := M.checksum m.hash
        if ck ≠ m.head_metacluster.next_checksum then
          let st : State := ⟨some ⟨nextMc, ck, M.free.length % 256⟩⟩
          .ok ({ m with head_metacluster := M, state := st },
               ⟨fh.cluster, m.flush_state_block st⟩)
        else
          .ok ({ m with head_metacluster := { m.head_metacluster with next := none },
                        state := ⟨none⟩ },
               ⟨fh.cluster, []⟩)
      | none =>
        .ok ({ m with state := ⟨none⟩ }, ⟨fh.cluster, []⟩)

/-- Push to the freelist (`Manager::freelist_push`). The new-head branch
triggers on `free.len() + 2 == SECTOR_SIZE / POINTER_SIZE`; the non-overflow
branch pushes and flushes the UNCHANGED state (the source updates neither the
counter nor the checksum there). `freelist_head.next_checksum` and
`freelist.cluster` in the source are resolved to the only existing fields,
`freelist_head.checksum` and `freelist_head.cluster`. -/
def Manager.freelist_push (m : Manager) (cluster : Nat) : Manager × List Write :=
  match m.state.freelist_head with
  | some fh =>
    if m.head_metacluster.free.length + 2 = SECTOR_SIZE / POINTER_SIZE then
      let H : Metacluster := { next_checksum := fh.checksum, next := some fh.cluster, free := [] }
      let st : State := ⟨some ⟨cluster, H.checksum m.hash, 0⟩⟩
      ({ m with head_metacluster := H, state := st },
       Manager.write_head_metacluster { m with head_metacluster := H } cluster
         ++ m.flush_state_block st)
    else
      let H : Metacluster := { m.head_metacluster with free := m.head_metacluster.free ++ [cluster] }
      ({ m with head_metacluster := H }, m.flush_state_block m.state)
  | none =>
    let st : State := ⟨some ⟨cluster, 0, 0⟩⟩
    ({ m with state := st }, m.flush_state_block st)

/-- Index of the last non-zero byte of a sector, the padding delimiter scan at
the head of `Manager::decompress`. -/
def findLastNonZero (l : List Nat) : Option Nat :=
  (l.enum.reverse.find? (fun p => p.2 != 0)).map (fun p => p.1)

/-- Decompress some data (`Manager::decompress`): locate the delimiter (last
non-zero byte); if none, `InvalidCompression`; otherwise panic under the
`Identity` configuration, else run the LZ4 codec on the bytes before the
delimiter, mapping a codec failure to `InvalidCompression` (the source drops
the `cluster` field of the error; it is not modelled). -/
def Manager.decompress (m : Manager) (cluster : List Nat) : Outcome (List Nat) :=
  match findLastNonZero cluster with
  | some len =>
    match m.compression_algorithm with
    | .Identity => .panics "Compression was disabled."
    | .Lz4 =>
      match m.lz4Decompress (cluster.take len) with
      | some d => .ok d
      | none => .error .InvalidCompression
  | none => .error .InvalidCompression

/-- The page-recovery phase of `Manager::read` (everything before the checksum
check): fetch the cluster; with `offset = Some i`, decompress and copy
`decompressed[i * SECTOR_SIZE..][..SECTOR_SIZE]`, which panics (a Rust slice
index panic) when `i * SECTOR_SIZE + SECTOR_SIZE` exceeds the decompressed
length; with `offset = None`, the raw cluster bytes. -/
def Manager.recover (m : Manager) (page : Pointer) : Outcome (List Nat) :=
  let cluster := m.cache page.cluster
  match page.offset with
  | none => .ok cluster
  | some i =>
    match m.decompress cluster with
    | .panics msg => .panics msg
    | .error e => .error e
    | .ok d =>
      if i * SECTOR_SIZE + SECTOR_SIZE ≤ d.length then
        .ok ((d.drop (i * SECTOR_SIZE)).take SECTOR_SIZE)
      else
        .panics "slice index out of range"

/-- Read a page (`Manager::read`): recover the page bytes, then compare the
hash truncated to `u32` with the stored checksum; mismatch yields
`PageChecksumMismatch` carrying the pointer and the computed value, match
returns the bytes (the source's dangling `Ok(ret)` resolved to the recovered
buffer, the only value in scope). -/
def Manager.read (m : Manager) (page : Pointer) : Outcome (List Nat) :=
  match m.recover page with
  | .panics msg => .panics msg
  | .error e => .error e
  | .ok buf =>
    let cksum := m.hash buf % 2 ^ 32
    if cksum ≠ page.checksum then
      .error (.PageChecksumMismatch page cksum)
    else
      .ok buf

/-- Compress some data (`Manager::compress`): panic under `Identity`; under
LZ4, if the compressed length is below the sector size, append the `0xFF`
delimiter and zero padding to a full sector (the branch's missing tail
expression resolved to `Some(buf)`, the value just built); otherwise no fit. -/
def Manager.compress (m : Manager) (input : List Nat) : Outcome (Option (List Nat)) :=
  match m.compression_algorithm with
  | .Identity => .panics "Compression was disabled."
  | .Lz4 =>
    let compressed := m.lz4Compress input
    if compressed.length < SECTOR_SIZE then
      .ok (some (compressed ++ 255 :: List.replicate (SECTOR_SIZE - (compressed.length + 1)) 0))
    else
      .ok none

/-- Modelled from the spec: `dedup::Table::dedup` lives outside `src`; section
3 describes the table as a mapping keyed by `(content_checksum, content_bytes)`
with exact-content keys, so lookup finds the entry whose checksum and bytes
both match. -/
def dedupLookup (t : List (Nat × List Nat × Pointer)) (cksum : Nat) (buf : List Nat) :
    Option Pointer :=
  (t.find? (fun e => e.1 == cksum && e.2.1 == buf)).map (fun e => e.2.2)

/-- The spill path of `Manager::alloc` (its tail after the last-cluster
attempt): pop a fresh cluster; if the single page compresses, install it as
the new last cluster and write the compressed sector; otherwise write the
page raw and leave `last_cluster` empty. The popped transaction is sequenced
before the cluster write, and the pointer is inserted into the dedup table
(the source inserts a mis-wrapped value; resolved to the pointer itself). -/
def Manager.allocSpill (m : Manager) (buf : List Nat) (cksum : Nat) :
    Outcome (Manager × Transacting Pointer) :=
  match m.freelist_pop with
  | .error e => .error e
  | .ok (m1, tc) =>
    match m1.compress buf with
    | .panics msg => .panics msg
    | .error e => .error e
    | .ok (some compressed) =>
      let ptr : Pointer := ⟨tc.value, some 0, cksum⟩
      .ok ({ m1 with last_cluster := some ⟨tc.value, buf⟩,
                     dedup_table := (cksum, buf, ptr) :: m1.dedup_table },
           ⟨ptr, tc.transaction ++ [⟨tc.value, .raw compressed⟩]⟩)
    | .ok none =>
      let ptr : Pointer := ⟨tc.value, none, cksum⟩
      .ok ({ m1 with dedup_table := (cksum, buf, ptr) :: m1.dedup_table },
           ⟨ptr, tc.transaction ++ [⟨tc.value, .raw buf⟩]⟩)

/-- Allocate a page (`Manager::alloc`): hash the buffer, probe the dedup table
(hit: the stored pointer in the empty transaction); under `Identity`, pop a
cluster and write the raw page; otherwise try to extend the taken
`last_cluster` (append, recompress, put back on success; the page offset is
`uncompressed.len() / SECTOR_SIZE - 1` with wrapping `usize` arithmetic), and
fall through to the spill path when there is no last cluster, the capacity is
exceeded, or the extended buffer no longer fits. Every returned pointer is
inserted into the dedup table first. -/
def Manager.alloc (m : Manager) (buf : List Nat) : Outcome (Manager × Transacting Pointer) :=
  let cksum := m.hash buf % 2 ^ 32
  match dedupLookup m.dedup_table cksum buf with
  | some page => .ok (m, ⟨page, []⟩)
  | none =>
    if m.compression_algorithm = .Identity then
      match m.freelist_pop with
      | .error e => .error e
      | .ok (m1, tc) =>
        let ptr : Pointer := ⟨tc.value, none, cksum⟩
        .ok ({ m1 with dedup_table := (cksum, buf, ptr) :: m1.dedup_table },
             ⟨ptr, tc.transaction ++ [⟨tc.value, .raw buf⟩]⟩)
    else
      match m.last_cluster with
      | some s =>
        if s.uncompressed.length < CLUSTER_CAPACITY then
          let u := s.uncompressed ++ buf
          match m.compress u with
          | .panics msg => .panics msg
          | .error e => .error e
          | .ok (some compressed) =>
            let ptr : Pointer :=
              ⟨s.cluster, some ((u.length / SECTOR_SIZE + (2 ^ 64 - 1)) % 2 ^ 64), cksum⟩
            .ok ({ m with last_cluster := some ⟨s.cluster, u⟩,
                          dedup_table := (cksum, buf, ptr) :: m.dedup_table },
                 ⟨ptr, [⟨s.cluster, .raw compressed⟩]⟩)
          | .ok none => Manager.allocSpill { m with last_cluster := none } buf cksum
        else
          Manager.allocSpill { m with last_cluster := none } buf cksum
      | none => Manager.allocSpill m buf cksum

/-! Concrete instances used to evaluate the code on explicit inputs. -/

/-- A baseline manager with empty freelist, empty dedup table, LZ4 configured,
constant-zero hash, trivial codec and empty cache, state block at address 2. -/
def baseM : Manager :=
  { state := ⟨none⟩
    head_metacluster := ⟨0, none, []⟩
    compression_algorithm := .Lz4
    last_cluster := none
    dedup_table := []
    hash := fun _ => 0
    lz4Compress := fun _ => []
    lz4Decompress := fun _ => none
    cache := fun _ => []
    stateBlockAddr := 2 }

/-- Manager for the C1 scenario: exhausted head metacluster whose stored next
checksum is 5, next metacluster at cluster 200 decoding to the empty
metacluster, and a constant hash of 7 — so the computed checksum 7 differs
from the stored 5. -/
def mC1 : Manager :=
  { baseM with
    hash := fun _ => 7
    state := ⟨some ⟨100, 99, 0⟩⟩
    head_metacluster := ⟨5, some 200, []⟩
    cache := fun _ => List.replicate 512 0 }

/-- C1: code bug, evaluated at the failing input. The head metacluster is
exhausted with `next = some 200` and stored `next_checksum = 5`; the decoded
next metacluster hashes to 7 ≠ 5. The claim (and the source's own comments)
demand `MetacluterChecksumMismatch` on this mismatch, but the source's
inverted comparison treats the mismatch as success: the decoded metacluster
is installed as the new head, the state block is flushed with the computed
checksum 7, and the pop returns the old head cluster 100. -/
theorem C1_pop_proceeds_on_checksum_mismatch :
    (Metacluster.decode (mC1.cache 200)).checksum mC1.hash = 7 ∧
    mC1.head_metacluster.next_checksum = 5 ∧
    mC1.freelist_pop = .ok
      ({ mC1 with head_metacluster := ⟨0, none, []⟩, state := ⟨some ⟨200, 7, 0⟩⟩ },
       ⟨100, [⟨2, .stateBlock ⟨some ⟨200, 7, 0⟩⟩⟩]⟩) := by
  refine ⟨by decide, by decide, ?_⟩
  rfl

/-- Manager for the C2 scenario: a consistent state (head holds one free
pointer, counter 1) about to receive a non-overflow push. -/
def mC2 : Manager :=
  { baseM with state := ⟨some ⟨9, 8, 1⟩⟩, head_metacluster := ⟨0, none, [4]⟩ }

/-- C2: code bug, evaluated at the failing input. Pushing cluster 5 onto a
head holding one pointer takes the non-overflow branch, which flushes the
UNCHANGED state block: the flushed counter is still 1 and the flushed checksum
still 8, while the in-memory head now holds 2 pointers — violating the claimed
invariant that every committed flush satisfies `counter = |head.free|` (and
that this branch increments the counter and recomputes the checksum). -/
theorem C2_push_flushes_stale_counter :
    (mC2.freelist_push 5).2 = [⟨2, .stateBlock ⟨some ⟨9, 8, 1⟩⟩⟩] ∧
    (mC2.freelist_push 5).1.head_metacluster.free.length = 2 ∧
    (1 : Nat) ≠ 2 := by
  decide

/-- Metacluster used to exhibit the `encode` layout bug. -/
def mc4 : Metacluster := ⟨0, none, [5]⟩

/-- C4: code bug, evaluated at the failing input. For the metacluster with a
single free pointer 5, the claimed/specified layout (`Metacluster.encodeLayout`)
places the pointer little-endian at bytes 16..24; the source's `encode` leaves
those bytes zero and instead writes the pointer at bytes 48..56 — i.e. at
offset `8 * value + 8`, indexed by the pointer's own value. -/
theorem C4_encode_misplaces_free_pointer :
    ((mc4.encodeLayout.drop 16).take 8 = 5 :: List.replicate 7 0) ∧
    ((mc4.encode.drop 16).take 8 = List.replicate 8 0) ∧
    ((mc4.encode.drop 48).take 8 = 5 :: List.replicate 7 0) ∧
    mc4.encode ≠ mc4.encodeLayout ∧
    mc4.checksum (fun l => l.length) = 24 := by
  decide

/-- Manager for the C5 counterexample: the head metacluster holds
`K - 1 = (512-16)/8 - 1 = 61` free pointers. -/
def mC5 : Manager :=
  { baseM with state := ⟨some ⟨9, 8, 61⟩⟩,
               head_metacluster := ⟨0, none, List.replicate 61 3⟩ }

/-- C5 counterexample: with the head holding `K - 1 = 61` pointers — exactly
where the claim says the new-head branch must fire — `freelist_push` instead
takes the non-overflow branch: the pushed cluster 4 is appended to the free
array (not used as a new empty head) and the only pending write is the state
flush (no metacluster write). -/
theorem C5_no_new_head_at_61 :
    (SECTOR_SIZE - 16) / POINTER_SIZE - 1 = 61 ∧
    mC5.head_metacluster.free.length = 61 ∧
    (mC5.freelist_push 4).1.head_metacluster.free = List.replicate 61 3 ++ [4] ∧
    (mC5.freelist_push 4).2 = [⟨2, .stateBlock ⟨some ⟨9, 8, 61⟩⟩⟩] := by
  decide

/-- C5 (amended): `freelist_push` takes the new-head branch exactly when the
head metacluster's free array holds `K = (S-16)/8` pointers, i.e. when
`free.len() + 2 = S/8` (the array is full; one more push would overflow). In
that branch it clears the head's free array, sets its next pointer to the old
head's cluster and its `next_checksum` to the old head's checksum as recorded
in the state block, records the pushed cluster as the new head with counter 0,
and sequences the write of the encoded metacluster to the pushed cluster
strictly before the state-block flush in the returned transaction. -/
theorem C5_new_head_branch (m : Manager) (c : Nat) (fh : FreelistHead)
    (h1 : m.state.freelist_head = some fh)
    (h2 : m.head_metacluster.free.length + 2 = SECTOR_SIZE / POINTER_SIZE) :
    m.freelist_push c =
      ({ m with head_metacluster := ⟨fh.checksum, some fh.cluster, []⟩,
                state := ⟨some ⟨c, Metacluster.checksum ⟨fh.checksum, some fh.cluster, []⟩ m.hash, 0⟩⟩ },
       [⟨c, .raw (Metacluster.encode ⟨fh.checksum, some fh.cluster, []⟩)⟩,
        ⟨m.stateBlockAddr,
         .stateBlock ⟨some ⟨c, Metacluster.checksum ⟨fh.checksum, some fh.cluster, []⟩ m.hash, 0⟩⟩⟩]) := by
  simp [Manager.freelist_push, h1, h2, Manager.write_head_metacluster,
        Manager.flush_state_block]

/-- Manager witnessing the amended C5 branch: head full with `K = 62` pointers. -/
def mC5w : Manager :=
  { baseM with state := ⟨some ⟨9, 8, 62⟩⟩,
               head_metacluster := ⟨0, none, List.replicate 62 3⟩ }

/-- C5 witness: the amended branch theorem applied at the full head. -/
theorem C5_new_head_branch_witness :
    mC5w.freelist_push 4 =
      ({ mC5w with head_metacluster := ⟨8, some 9, []⟩,
                   state := ⟨some ⟨4, Metacluster.checksum ⟨8, some 9, []⟩ mC5w.hash, 0⟩⟩ },
       [⟨4, .raw (Metacluster.encode ⟨8, some 9, []⟩)⟩,
        ⟨2, .stateBlock ⟨some ⟨4, Metacluster.checksum ⟨8, some 9, []⟩ mC5w.hash, 0⟩⟩⟩]) :=
  C5_new_head_branch mC5w 4 ⟨9, 8, 62⟩ rfl (by decide)

/-- C6: for every state whose head metacluster's free array is non-empty
(written `l ++ [c]`) and whose state-block counter matches it (the documented
invariant, with the `u8` counter in range), `freelist_pop` removes and returns
the last element `c`, decrements the counter by exactly 1 (to `l.length`),
recomputes the state-block checksum as the head's active-prefix checksum
(`Metacluster.checksum` of the shrunken head), and commits exactly one
state-block sector write, in which the returned value is wrapped. -/
theorem C6_pop_pops_last (m : Manager) (fh : FreelistHead) (l : List Nat) (c : Nat)
    (h1 : m.state.freelist_head = some fh)
    (h2 : m.head_metacluster.free = l ++ [c])
    (h3 : fh.counter = l.length + 1)
    (h4 : l.length + 1 ≤ 255) :
    m.freelist_pop = .ok
      ({ m with head_metacluster := { m.head_metacluster with free := l },
                state := ⟨some ⟨fh.cluster,
                  Metacluster.checksum { m.head_metacluster with free := l } m.hash,
                  l.length⟩⟩ },
       ⟨c, [⟨m.stateBlockAddr,
             .stateBlock ⟨some ⟨fh.cluster,
               Metacluster.checksum { m.head_metacluster with free := l } m.hash,
               l.length⟩⟩⟩]⟩) := by
  have hc : (fh.counter + 255) % 256 = l.length := by omega
  simp [Manager.freelist_pop, h1, h2, Manager.flush_state_block, hc]

/-- Manager witnessing C6: one free pointer in the head, counter 1. -/
def mC6w : Manager :=
  { baseM with state := ⟨some ⟨9, 8, 1⟩⟩, head_metacluster := ⟨0, none, [5]⟩ }

/-- C6 witness: the pop theorem applied at a head holding the single pointer 5. -/
theorem C6_pop_pops_last_witness :
    mC6w.freelist_pop = .ok
      ({ mC6w with head_metacluster := ⟨0, none, []⟩,
                   state := ⟨some ⟨9, Metacluster.checksum ⟨0, none, []⟩ mC6w.hash, 0⟩⟩ },
       ⟨5, [⟨2, .stateBlock ⟨some ⟨9, Metacluster.checksum ⟨0, none, []⟩ mC6w.hash, 0⟩⟩⟩]⟩) :=
  C6_pop_pops_last mC6w ⟨9, 8, 1⟩ [] 5 rfl rfl rfl (by decide)

/-- C7: whenever the recovery phase of `read` yields page bytes `buf`, `read`
computes the hash of `buf` truncated to `u32`; if it differs from the stored
checksum, `read` fails with `PageChecksumMismatch` carrying the given pointer
and the computed value as `found`; if they agree, the page bytes are returned. -/
theorem C7_read_checksum_enforced (m : Manager) (p : Pointer) (buf : List Nat)
    (h : m.recover p = .ok buf) :
    (m.hash buf % 2 ^ 32 ≠ p.checksum →
        m.read p = .error (.PageChecksumMismatch p (m.hash buf % 2 ^ 32))) ∧
    (m.hash buf % 2 ^ 32 = p.checksum → m.read p = .ok buf) := by
  unfold Manager.read
  rw [h]
  constructor <;> intro h2 <;>
    rw [show ((2 : Nat) ^ 32) = 4294967296 from by norm_num] at h2 <;> simp [h2]

/-- C7 witness: the checksum theorem applied at an uncompressed pointer whose
stored checksum 1 differs from the computed hash 0. -/
theorem C7_read_checksum_enforced_witness :
    baseM.read ⟨3, none, 1⟩ = .error (.PageChecksumMismatch ⟨3, none, 1⟩ 0) :=
  (C7_read_checksum_enforced baseM ⟨3, none, 1⟩ [] rfl).1 (by decide)

/-- Manager for the C3 scenario: the cached cluster holds a single nonzero
byte, and the codec decompresses to 513 bytes — a length that is NOT a
multiple of the sector size 512. -/
def mC3 : Manager :=
  { baseM with cache := fun _ => [1],
               lz4Decompress := fun _ => some (List.replicate 513 1) }

/-- C3 counterexample: the decompressed stream has length 513, which is not a
multiple of `SECTOR_SIZE`; the claim requires `read` to return
`InvalidCompression`, but the code performs no divisibility check and happily
returns the sliced page. -/
theorem C3_no_divisibility_check :
    mC3.decompress (mC3.cache 3) = .ok (List.replicate 513 1) ∧
    513 % SECTOR_SIZE ≠ 0 ∧
    mC3.read ⟨3, some 0, 0⟩ = .ok (List.replicate 512 1) := by
  decide

/-- C3 (amended): for a pointer with `offset = Some i`, `read` performs no
validation of the decompressed length: whenever `i*S + S` fits within the
decompressed stream it slices out sector `i` directly (even if the length is
not a multiple of `S`), and whenever `i*S + S` exceeds the length the slice
index is out of range and the code panics — no `InvalidCompression` is
returned in either case. -/
theorem C3_read_slices_unchecked (m : Manager) (p : Pointer) (i : Nat) (d : List Nat)
    (h1 : p.offset = some i)
    (h2 : m.decompress (m.cache p.cluster) = .ok d) :
    (i * SECTOR_SIZE + SECTOR_SIZE ≤ d.length →
        m.recover p = .ok ((d.drop (i * SECTOR_SIZE)).take SECTOR_SIZE)) ∧
    (d.length < i * SECTOR_SIZE + SECTOR_SIZE →
        m.read p = .panics "slice index out of range") := by
  constructor <;> intro h3
  · simp [Manager.recover, h1, h2, h3]
  · simp [Manager.read, Manager.recover, h1, h2, Nat.not_le.mpr h3]

/-- C3 witness: the amended theorem applied at the 513-byte stream, slicing
out sector 0 without any divisibility check. -/
theorem C3_read_slices_unchecked_witness :
    mC3.recover ⟨3, some 0, 0⟩ =
      .ok (((List.replicate 513 1).drop (0 * SECTOR_SIZE)).take SECTOR_SIZE) :=
  (C3_read_slices_unchecked mC3 ⟨3, some 0, 0⟩ 0 (List.replicate 513 1) rfl rfl).1
    (by decide)

/-- Manager for the C10 counterexample: compression disabled (`Identity`) and
an all-zero cached cluster. -/
def mC10 : Manager :=
  { baseM with compression_algorithm := .Identity,
               cache := fun _ => List.replicate 512 0 }

/-- C10 counterexample: under the `Identity` configuration, reading a pointer
with `offset = Some 0` whose cluster is all zeros does NOT panic — the
delimiter scan in `decompress` fails first and `read` returns the typed error
`InvalidCompression`, refuting the claim that every such read panics. -/
theorem C10_all_zero_cluster_returns_error :
    mC10.compression_algorithm = .Identity ∧
    mC10.read ⟨3, some 0, 0⟩ = .error .InvalidCompression := by
  decide

/-- C10 (amended): under the `Identity` configuration, `read` on a pointer
with `offset = Some i` panics with the message "Compression was disabled."
whenever the cached cluster contains at least one nonzero byte (so the
delimiter scan succeeds and `decompress` reaches the algorithm dispatch); an
all-zero cluster instead yields the typed error `InvalidCompression`. -/
theorem C10_read_panics_under_identity (m : Manager) (p : Pointer) (i : Nat)
    (h1 : m.compression_algorithm = .Identity)
    (h2 : p.offset = some i)
    (h3 : (findLastNonZero (m.cache p.cluster)).isSome = true) :
    m.read p = .panics "Compression was disabled." := by
  rcases hfl : findLastNonZero (m.cache p.cluster) with _ | len
  · rw [hfl] at h3
    simp at h3
  · simp [Manager.read, Manager.recover, Manager.decompress, h1, h2, hfl]

/-- Manager witnessing the amended C10: `Identity` with a nonzero cluster. -/
def mC10w : Manager :=
  { baseM with compression_algorithm := .Identity, cache := fun _ => [1] }

/-- C10 witness: the amended theorem applied at a cluster holding the byte 1. -/
theorem C10_read_panics_under_identity_witness :
    mC10w.read ⟨3, some 0, 0⟩ = .panics "Compression was disabled." :=
  C10_read_panics_under_identity mC10w ⟨3, some 0, 0⟩ 0 rfl rfl (by decide)

/-- C8 (amended): whenever `state.freelist_head` is `None`, `freelist_pop`
returns `OutOfClusters` without producing any new state or pending write; and
consequently `alloc` of a non-duplicate page fails with `OutOfClusters` when
the freelist is exhausted AND the allocation needs a fresh cluster — in
particular always when compression is disabled, or when there is no last
cluster to extend. -/
theorem C8_out_of_clusters (m : Manager) (buf : List Nat)
    (h1 : m.state.freelist_head = none) :
    m.freelist_pop = .error .OutOfClusters ∧
    (dedupLookup m.dedup_table (m.hash buf % 2 ^ 32) buf = none →
      m.compression_algorithm = .Identity ∨ m.last_cluster = none →
      m.alloc buf = .error .OutOfClusters) := by
  have hpop : m.freelist_pop = .error .OutOfClusters := by
    simp [Manager.freelist_pop, h1]
  refine ⟨hpop, fun h2 h3 => ?_⟩
  have h2' : dedupLookup m.dedup_table (m.hash buf % 4294967296) buf = none := by
    rw [show (4294967296 : Nat) = 2 ^ 32 from by norm_num]
    exact h2
  rcases h3 with h3 | h3
  · simp [Manager.alloc, h2, h2', h3, hpop]
  · rcases halg : m.compression_algorithm with _ | _
    · simp [Manager.alloc, h2, h2', halg, hpop]
    · simp [Manager.alloc, h2, h2', halg, h3, Manager.allocSpill, hpop]

/-- Manager witnessing the amended C8: compression disabled, empty freelist. -/
def mC8w : Manager :=
  { baseM with compression_algorithm := .Identity }

/-- C8 witness: the amended theorem applied with compression disabled. -/
theorem C8_out_of_clusters_witness :
    mC8w.alloc [1] = .error .OutOfClusters :=
  (C8_out_of_clusters mC8w [1] rfl).2 rfl (Or.inl rfl)

/-- Manager for the C8 counterexample: LZ4 compression, an empty freelist, and
a last cluster holding one uncompressed page that the (trivial) codec can
extend. -/
def mC8 : Manager :=
  { baseM with last_cluster := some ⟨7, List.replicate 512 1⟩ }

/-- C8 counterexample: with the freelist exhausted (`freelist_head = None`)
but an extendable last cluster, `alloc` of a non-duplicate page SUCCEEDS by
appending into the last cluster — it never touches the freelist — refuting
the claim that `alloc` of a non-duplicate page fails with `OutOfClusters`
whenever the freelist is exhausted. -/
theorem C8_alloc_succeeds_on_empty_freelist :
    mC8.state.freelist_head = none ∧
    dedupLookup mC8.dedup_table (mC8.hash (List.replicate 512 9) % 2 ^ 32)
      (List.replicate 512 9) = none ∧
    (mC8.alloc (List.replicate 512 9)).isOk = true := by
  decide

/-- A successful `freelist_pop` changes neither the hash configuration nor the
dedup table of the manager. -/
theorem freelist_pop_preserves (m : Manager) (r : Manager × Transacting Nat)
    (h : m.freelist_pop = .ok r) :
    r.1.hash = m.hash ∧ r.1.dedup_table = m.dedup_table := by
  unfold Manager.freelist_pop at h
  rcases hfh : m.state.freelist_head with _ | fh <;> simp only [hfh] at h
  · exact Except.noConfusion h
  · rcases hgl : m.head_metacluster.free.getLast? with _ | c <;> simp only [hgl] at h
    · rcases hnx : m.head_metacluster.next with _ | n <;> simp only [hnx] at h
      · injection h with h
        subst h
        exact ⟨rfl, rfl⟩
      · split at h <;> (injection h with h; subst h; exact ⟨rfl, rfl⟩)
    · injection h with h
      subst h
      exact ⟨rfl, rfl⟩

/-- Looking up the freshly inserted key of a dedup table finds its pointer. -/
theorem dedupLookup_cons_self (t : List (Nat × List Nat × Pointer)) (c : Nat)
    (b : List Nat) (p : Pointer) :
    dedupLookup ((c, b, p) :: t) c b = some p := by
  unfold dedupLookup
  rw [List.find?_cons_of_pos _ (by simp)]
  rfl

/-- The spill path of `alloc` preserves the hash configuration and prepends
the returned pointer, keyed by the given checksum and buffer, to the dedup
table. -/
theorem allocSpill_inserts (m : Manager) (buf : List Nat) (ck : Nat)
    (r : Manager × Transacting Pointer)
    (h : m.allocSpill buf ck = .ok r) :
    r.1.hash = m.hash ∧
    r.1.dedup_table = (ck, buf, r.2.value) :: m.dedup_table := by
  unfold Manager.allocSpill at h
  rcases hpop : m.freelist_pop with e | mtc <;> simp only [hpop] at h
  case error => exact Outcome.noConfusion h
  case ok =>
    obtain ⟨hh, hd⟩ := freelist_pop_preserves m mtc hpop
    rcases hcmp : mtc.1.compress buf with msg | od | e
    · rw [hcmp] at h
      exact Outcome.noConfusion h
    · rcases od with _ | cbytes <;> rw [hcmp] at h <;>
        (injection h with h; subst h; exact ⟨hh, by rw [hd]⟩)
    · rw [hcmp] at h
      exact Outcome.noConfusion h

/-- Every successful `alloc` leaves the returned pointer retrievable from the
returned manager's dedup table under the original hash of the buffer, and
preserves the hash configuration. -/
theorem alloc_inserts (m : Manager) (buf : List Nat) (r : Manager × Transacting Pointer)
    (h : m.alloc buf = .ok r) :
    r.1.hash = m.hash ∧
    dedupLookup r.1.dedup_table (m.hash buf % 2 ^ 32) buf = some r.2.value := by
  unfold Manager.alloc at h
  rcases hdl : dedupLookup m.dedup_table (m.hash buf % 2 ^ 32) buf with _ | p <;>
    simp only [hdl] at h
  · split at h
    · rcases hpop : m.freelist_pop with e | mtc <;> simp only [hpop] at h
      · exact Outcome.noConfusion h
      · obtain ⟨hh, hd⟩ := freelist_pop_preserves m mtc hpop
        injection h with h
        subst h
        exact ⟨hh, by rw [hd]; exact dedupLookup_cons_self _ _ _ _⟩
    · rcases hlc : m.last_cluster with _ | s <;> simp only [hlc] at h
      · obtain ⟨hh, hd⟩ := allocSpill_inserts m buf _ r h
        exact ⟨hh, by rw [hd]; exact dedupLookup_cons_self _ _ _ _⟩
      · split at h
        · rcases hcmp : m.compress (s.uncompressed ++ buf) with msg | od | e
          · rw [hcmp] at h
            exact Outcome.noConfusion h
          · rcases od with _ | cbytes <;> rw [hcmp] at h
            · obtain ⟨hh, hd⟩ :=
                allocSpill_inserts { m with last_cluster := none } buf _ r h
              exact ⟨hh, by rw [hd]; exact dedupLookup_cons_self _ _ _ _⟩
            · injection h with h
              subst h
              exact ⟨rfl, dedupLookup_cons_self _ _ _ _⟩
          · rw [hcmp] at h
            exact Outcome.noConfusion h
        · obtain ⟨hh, hd⟩ :=
            allocSpill_inserts { m with last_cluster := none } buf _ r h
          exact ⟨hh, by rw [hd]; exact dedupLookup_cons_self _ _ _ _⟩
  · injection h with h
    subst h
    exact ⟨rfl, hdl⟩

/-- C9: after any successful `alloc m buf` returning manager `r.1` and pointer
`r.2.value`, calling `alloc` again with the same buffer hits the dedup table:
it returns the SAME pointer (hence equal cluster and offset) wrapped in the
empty transaction, and leaves the manager unchanged — no freelist pop and no
cluster write happen. -/
theorem C9_dedup_idempotent (m : Manager) (buf : List Nat)
    (r : Manager × Transacting Pointer)
    (h : m.alloc buf = .ok r) :
    r.1.alloc buf = .ok (r.1, ⟨r.2.value, []⟩) := by
  obtain ⟨hh, hl⟩ := alloc_inserts m buf r h
  have hl' : dedupLookup r.1.dedup_table (r.1.hash buf % 2 ^ 32) buf = some r.2.value := by
    rw [hh]
    exact hl
  have hl2 : dedupLookup r.1.dedup_table (r.1.hash buf % 4294967296) buf = some r.2.value := by
    rw [show (4294967296 : Nat) = 2 ^ 32 from by norm_num]
    exact hl'
  simp [Manager.alloc, hl', hl2]

/-- Manager witnessing C9: compression disabled, freelist holding cluster 5. -/
def mC9w : Manager :=
  { baseM with compression_algorithm := .Identity,
               state := ⟨some ⟨9, 0, 1⟩⟩, head_metacluster := ⟨0, none, [5]⟩ }

/-- The manager after the first `alloc` of page `[3]` on `mC9w`. -/
def mC9w2 : Manager :=
  { mC9w with head_metacluster := ⟨0, none, []⟩,
              state := ⟨some ⟨9, 0, 0⟩⟩,
              dedup_table := [(0, [3], ⟨5, none, 0⟩)] }

/-- C9 witness: the idempotence theorem applied after a concrete first
allocation, which popped cluster 5 and inserted the pointer into the dedup
table; the second call returns the same pointer with no transaction. -/
theorem C9_dedup_idempotent_witness :
    mC9w2.alloc [3] = .ok (mC9w2, ⟨⟨5, none, 0⟩, []⟩) :=
  C9_dedup_idempotent mC9w [3]
    (mC9w2, ⟨⟨5, none, 0⟩, [⟨2, .stateBlock ⟨some ⟨9, 0, 0⟩⟩⟩, ⟨5, .raw [3]⟩]⟩) rfl
